import Mathlib

/-!
Verification of the smart-home registry (`src/smart/location.rs`).

The Rust module defines two containers, `SmartHouse` (a named list of
rooms) and `SmartRoom` (a named list of devices), with uniqueness-checked
insertion (`add` / `plug`), by-name removal (`del` / `unplug`), read-only
views (`get_rooms` / `devices`), a by-name connection check
(`is_connected`), name-only equality for rooms, exact `Display`
renderings and a delegating `create_report`.

Every `&mut self` method is embedded as a state-passing function: the
Lean function takes the receiver value and returns the updated value,
paired with the `Result` where the source returns one.  `Vec` becomes
`List` (push is append at the end, `remove(index)` of the first matching
position is removal of the first match).
-/

namespace Smart

/-- Modelled from the spec: the `Pluggable` trait is declared outside
`location.rs` (in `crate::smart`) and, per the spec, exposes only
`name() -> string`; concrete devices carry arbitrary implementer-defined
state.  That extra state is modelled by the `payload` field so that two
distinct device objects can share one name. -/
structure Device where
  name : String
  payload : Nat
deriving DecidableEq

/-- `SmartRoom { name: String, devices: Vec<Arc<dyn Pluggable>> }`. -/
structure SmartRoom where
  name : String
  devices : List Device
deriving DecidableEq

/-- `SmartRoom::new`: a room with the given name and no devices. -/
def SmartRoom.new (name : String) : SmartRoom :=
  { name := name, devices := [] }

/-- `SmartRoom::plug`: if some stored device has the same name, return
the duplicate-device error and leave the room as it was; otherwise push
the device at the end of the list. -/
def SmartRoom.plug (self : SmartRoom) (device : Device) :
    Except String Unit × SmartRoom :=
  match self.devices.find? (fun d => d.name == device.name) with
  | some _ =>
      (Except.error ("Device with name " ++ device.name ++ " already pluged"),
       self)
  | none =>
      (Except.ok (), { self with devices := self.devices ++ [device] })

/-- Removal of the first element satisfying `p`, the effect of
`position(...)` followed by `remove(index)` on a `Vec`. -/
def removeFirst (p : α → Bool) : List α → List α
  | [] => []
  | x :: xs => if p x then xs else x :: removeFirst p xs

/-- `SmartRoom::unplug`: remove the first device with the given name;
no change when no device matches. -/
def SmartRoom.unplug (self : SmartRoom) (device : String) : SmartRoom :=
  { self with devices := removeFirst (fun d => d.name == device) self.devices }

/-- `SmartRoom::is_connected`: true iff some stored device has the same
name as the argument. -/
def SmartRoom.is_connected (self : SmartRoom) (device : Device) : Bool :=
  self.devices.any (fun d => d.name == device.name)

/-- `SmartRoom::devices()`: the names of the stored devices, in order.
(Named `deviceNames` here because the field is already called
`devices`.) -/
def SmartRoom.deviceNames (self : SmartRoom) : List String :=
  self.devices.map (fun d => d.name)

/-- `impl PartialEq for SmartRoom`: equality compares names only. -/
def SmartRoom.eq (self other : SmartRoom) : Bool :=
  self.name == other.name

/-- `writeln!` on a one-line format: the line followed by a newline. -/
def writeln (s : String) : String :=
  s ++ "\n"

/-- `impl fmt::Display for SmartRoom`. -/
def SmartRoom.display (self : SmartRoom) : String :=
  writeln ("--> Room: " ++ self.name)

/-- `SmartHouse { name: String, rooms: Vec<SmartRoom> }`. -/
structure SmartHouse where
  name : String
  rooms : List SmartRoom
deriving DecidableEq

/-- `SmartHouse::new`: a house with the given name and no rooms. -/
def SmartHouse.new (name : String) : SmartHouse :=
  { name := name, rooms := [] }

/-- `SmartHouse::get_rooms`: the read-only view of the room list. -/
def SmartHouse.get_rooms (self : SmartHouse) : List SmartRoom :=
  self.rooms

/-- `SmartHouse::add`: if some stored room has the same name, return the
already-constructed error and leave the house as it was; otherwise push
the room at the end of the list. -/
def SmartHouse.add (self : SmartHouse) (room : SmartRoom) :
    Except String Unit × SmartHouse :=
  match self.get_rooms.find? (fun v => v.name == room.name) with
  | some _ =>
      (Except.error ("room " ++ room.name ++ " already constructed"), self)
  | none =>
      (Except.ok (), { self with rooms := self.rooms ++ [room] })

/-- `SmartHouse::del`: remove the first room with the given name; no
change when no room matches. -/
def SmartHouse.del (self : SmartHouse) (room : String) : SmartHouse :=
  { self with rooms := removeFirst (fun r => r.name == room) self.rooms }

/-- Modelled from the spec: the `Reportable` trait is declared outside
`location.rs`; an implementer exposes
`make(&self, &SmartHouse) -> Result<String, Box<dyn Error>>`. -/
structure Reportable where
  make : SmartHouse → Except String String

/-- `SmartHouse::create_report`: delegate to the reporter.  The receiver
is taken by shared reference in the source (`&self`), so the house value
is not modified; accordingly the embedding returns only the report. -/
def SmartHouse.create_report (self : SmartHouse) (report : Reportable) :
    Except String String :=
  report.make self

/-- `impl fmt::Display for SmartHouse`. -/
def SmartHouse.display (self : SmartHouse) : String :=
  writeln ("-> House: " ++ self.name)

/-- The names of the stored rooms, in order. -/
def SmartHouse.roomNames (self : SmartHouse) : List String :=
  self.rooms.map (fun r => r.name)

/-- Run a sequence of `add` calls, keeping the state each call leaves
behind (a failed `add` leaves the receiver untouched). -/
def SmartHouse.addAll (self : SmartHouse) (rs : List SmartRoom) : SmartHouse :=
  rs.foldl (fun h r => (h.add r).2) self

/-- Run a sequence of `plug` calls, keeping the state each call leaves
behind (a failed `plug` leaves the receiver untouched). -/
def SmartRoom.plugAll (self : SmartRoom) (ds : List Device) : SmartRoom :=
  ds.foldl (fun room d => (room.plug d).2) self

/-- A call against a house: `add(room)` or `del(name)`. -/
inductive HouseOp where
  | add (room : SmartRoom)
  | del (name : String)

/-- Run a sequence of house calls. -/
def SmartHouse.run (self : SmartHouse) : List HouseOp → SmartHouse
  | [] => self
  | HouseOp.add r :: ops => ((self.add r).2).run ops
  | HouseOp.del s :: ops => (self.del s).run ops

/-- The rooms passed to `add`, in call order. -/
def houseAdds : List HouseOp → List SmartRoom
  | [] => []
  | HouseOp.add r :: ops => r :: houseAdds ops
  | HouseOp.del _ :: ops => houseAdds ops

/-- A call against a room: `plug(device)` or `unplug(name)`. -/
inductive RoomOp where
  | plug (device : Device)
  | unplug (name : String)

/-- Run a sequence of room calls. -/
def SmartRoom.run (self : SmartRoom) : List RoomOp → SmartRoom
  | [] => self
  | RoomOp.plug d :: ops => ((self.plug d).2).run ops
  | RoomOp.unplug s :: ops => (self.unplug s).run ops

/-- The devices passed to `plug`, in call order. -/
def roomAdds : List RoomOp → List Device
  | [] => []
  | RoomOp.plug d :: ops => d :: roomAdds ops
  | RoomOp.unplug _ :: ops => roomAdds ops

/-- Removing the first match keeps a subsequence of the original list. -/
theorem removeFirst_sublist (p : α → Bool) (l : List α) :
    List.Sublist (removeFirst p l) l := by
  induction l with
  | nil => exact List.Sublist.refl _
  | cons x xs ih =>
    by_cases hx : p x
    · rw [removeFirst, if_pos hx]
      exact List.sublist_cons_self x xs
    · rw [removeFirst, if_neg hx]
      exact List.Sublist.cons₂ x ih

/-- When nothing matches, removing the first match changes nothing. -/
theorem removeFirst_of_none (p : α → Bool) (l : List α)
    (hnone : ∀ x ∈ l, p x = false) : removeFirst p l = l := by
  induction l with
  | nil => rfl
  | cons x xs ih =>
    have hx : p x = false := hnone x (List.mem_cons_self x xs)
    simp [removeFirst, hx, ih fun y hy => hnone y (List.mem_cons_of_mem x hy)]

/-- `add` on a house containing a room of the same name: the
already-constructed error, state untouched. -/
theorem add_eq_of_conflict (h : SmartHouse) (r : SmartRoom)
    (hc : ∃ v ∈ h.rooms, v.name = r.name) :
    h.add r = (Except.error ("room " ++ r.name ++ " already constructed"), h) := by
  have hsome : (h.rooms.find? (fun v => v.name == r.name)).isSome := by
    rw [List.find?_isSome]
    obtain ⟨v, hv, hn⟩ := hc
    exact ⟨v, hv, by simpa using hn⟩
  obtain ⟨w, hw⟩ := Option.isSome_iff_exists.mp hsome
  simp only [SmartHouse.add, SmartHouse.get_rooms, hw]

/-- `add` on a house with no room of that name: success, room appended. -/
theorem add_eq_of_fresh (h : SmartHouse) (r : SmartRoom)
    (hf : ∀ v ∈ h.rooms, v.name ≠ r.name) :
    h.add r = (Except.ok (), { h with rooms := h.rooms ++ [r] }) := by
  have hnone : h.rooms.find? (fun v => v.name == r.name) = none := by
    rw [List.find?_eq_none]
    intro v hv
    simpa using hf v hv
  simp only [SmartHouse.add, SmartHouse.get_rooms, hnone]

/-- `plug` on a room containing a device of the same name: the
duplicate-device error, state untouched. -/
theorem plug_eq_of_conflict (room : SmartRoom) (d : Device)
    (hc : ∃ x ∈ room.devices, x.name = d.name) :
    room.plug d =
      (Except.error ("Device with name " ++ d.name ++ " already pluged"), room) := by
  have hsome : (room.devices.find? (fun x => x.name == d.name)).isSome := by
    rw [List.find?_isSome]
    obtain ⟨x, hx, hn⟩ := hc
    exact ⟨x, hx, by simpa using hn⟩
  obtain ⟨w, hw⟩ := Option.isSome_iff_exists.mp hsome
  simp only [SmartRoom.plug, hw]

/-- `plug` on a room with no device of that name: success, device
appended. -/
theorem plug_eq_of_fresh (room : SmartRoom) (d : Device)
    (hf : ∀ x ∈ room.devices, x.name ≠ d.name) :
    room.plug d = (Except.ok (), { room with devices := room.devices ++ [d] }) := by
  have hnone : room.devices.find? (fun x => x.name == d.name) = none := by
    rw [List.find?_eq_none]
    intro x hx
    simpa using hf x hx
  simp only [SmartRoom.plug, hnone]

/-- The state an `add` leaves behind: unchanged, or with the room
appended. -/
theorem add_snd_cases (h : SmartHouse) (r : SmartRoom) :
    (h.add r).2 = h ∨ (h.add r).2 = { h with rooms := h.rooms ++ [r] } := by
  by_cases hc : ∃ v ∈ h.rooms, v.name = r.name
  · exact Or.inl (by rw [add_eq_of_conflict h r hc])
  · push_neg at hc
    exact Or.inr (by rw [add_eq_of_fresh h r hc])

/-- The state a `plug` leaves behind: unchanged, or with the device
appended. -/
theorem plug_snd_cases (room : SmartRoom) (d : Device) :
    (room.plug d).2 = room ∨
      (room.plug d).2 = { room with devices := room.devices ++ [d] } := by
  by_cases hc : ∃ x ∈ room.devices, x.name = d.name
  · exact Or.inl (by rw [plug_eq_of_conflict room d hc])
  · push_neg at hc
    exact Or.inr (by rw [plug_eq_of_fresh room d hc])

/-- Any single `add` call preserves distinctness of room names. -/
theorem add_roomNames_nodup (h : SmartHouse) (r : SmartRoom)
    (hnd : h.roomNames.Nodup) : ((h.add r).2).roomNames.Nodup := by
  by_cases hc : ∃ v ∈ h.rooms, v.name = r.name
  · rw [add_eq_of_conflict h r hc]
    exact hnd
  · push_neg at hc
    rw [add_eq_of_fresh h r hc]
    simp only [SmartHouse.roomNames] at hnd ⊢
    rw [List.map_append]
    refine List.Nodup.append hnd (by simp) ?_
    intro a ha hb
    simp only [List.map_cons, List.map_nil, List.mem_singleton] at hb
    subst hb
    obtain ⟨v, hv, hvn⟩ := List.mem_map.mp ha
    exact hc v hv hvn

/-- Any single `plug` call preserves distinctness of device names. -/
theorem plug_deviceNames_nodup (room : SmartRoom) (d : Device)
    (hnd : room.deviceNames.Nodup) : ((room.plug d).2).deviceNames.Nodup := by
  by_cases hc : ∃ x ∈ room.devices, x.name = d.name
  · rw [plug_eq_of_conflict room d hc]
    exact hnd
  · push_neg at hc
    rw [plug_eq_of_fresh room d hc]
    simp only [SmartRoom.deviceNames] at hnd ⊢
    rw [List.map_append]
    refine List.Nodup.append hnd (by simp) ?_
    intro a ha hb
    simp only [List.map_cons, List.map_nil, List.mem_singleton] at hb
    subst hb
    obtain ⟨x, hx, hxn⟩ := List.mem_map.mp ha
    exact hc x hx hxn

/-- Any sequence of `add` calls preserves distinctness of room names. -/
theorem addAll_nodup (rs : List SmartRoom) :
    ∀ h : SmartHouse, h.roomNames.Nodup → (h.addAll rs).roomNames.Nodup := by
  induction rs with
  | nil => intro h hnd; exact hnd
  | cons r rs ih =>
    intro h hnd
    exact ih ((h.add r).2) (add_roomNames_nodup h r hnd)

/-- Any sequence of `plug` calls preserves distinctness of device
names. -/
theorem plugAll_nodup (ds : List Device) :
    ∀ room : SmartRoom, room.deviceNames.Nodup →
      (room.plugAll ds).deviceNames.Nodup := by
  induction ds with
  | nil => intro room hnd; exact hnd
  | cons d ds ih =>
    intro room hnd
    exact ih ((room.plug d).2) (plug_deviceNames_nodup room d hnd)

/-- After any sequence of house calls, the room list is an in-order
subsequence of the initial rooms followed by the rooms passed to `add`,
in call order. -/
theorem run_rooms_sublist (ops : List HouseOp) :
    ∀ h : SmartHouse,
      List.Sublist ((h.run ops).rooms) (h.rooms ++ houseAdds ops) := by
  induction ops with
  | nil =>
    intro h
    simp [SmartHouse.run, houseAdds]
  | cons op ops ih =>
    intro h
    cases op with
    | add r =>
      simp only [SmartHouse.run, houseAdds]
      rcases add_snd_cases h r with hcase | hcase
      · rw [hcase]
        refine (ih h).trans ?_
        exact List.Sublist.append_left ((houseAdds ops).sublist_cons_self r) h.rooms
      · rw [hcase]
        have h1 := ih { h with rooms := h.rooms ++ [r] }
        simpa [List.append_assoc] using h1
    | del s =>
      simp only [SmartHouse.run, houseAdds]
      have h2 : List.Sublist (h.del s).rooms h.rooms := by
        simpa [SmartHouse.del] using removeFirst_sublist (fun r => r.name == s) h.rooms
      exact (ih (h.del s)).trans (List.Sublist.append h2 (List.Sublist.refl _))

/-- After any sequence of room calls, the device list is an in-order
subsequence of the initial devices followed by the devices passed to
`plug`, in call order. -/
theorem run_devices_sublist (ops : List RoomOp) :
    ∀ room : SmartRoom,
      List.Sublist ((room.run ops).devices) (room.devices ++ roomAdds ops) := by
  induction ops with
  | nil =>
    intro room
    simp [SmartRoom.run, roomAdds]
  | cons op ops ih =>
    intro room
    cases op with
    | plug d =>
      simp only [SmartRoom.run, roomAdds]
      rcases plug_snd_cases room d with hcase | hcase
      · rw [hcase]
        refine (ih room).trans ?_
        exact List.Sublist.append_left ((roomAdds ops).sublist_cons_self d) room.devices
      · rw [hcase]
        have h1 := ih { room with devices := room.devices ++ [d] }
        simpa [List.append_assoc] using h1
    | unplug s =>
      simp only [SmartRoom.run, roomAdds]
      have h2 : List.Sublist (room.unplug s).devices room.devices := by
        simpa [SmartRoom.unplug] using removeFirst_sublist (fun d => d.name == s) room.devices
      exact (ih (room.unplug s)).trans (List.Sublist.append h2 (List.Sublist.refl _))

/-- A failed `add` is exactly the conflict branch of the match. -/
theorem add_fail_exact (h : SmartHouse) (r : SmartRoom)
    (hfail : (h.add r).1.isOk = false) :
    (h.add r).1 = Except.error ("room " ++ r.name ++ " already constructed") := by
  by_cases hc : ∃ v ∈ h.rooms, v.name = r.name
  · rw [add_eq_of_conflict h r hc]
  · push_neg at hc
    rw [add_eq_of_fresh h r hc] at hfail
    simp [Except.isOk, Except.toBool] at hfail

/-- A failed `plug` is exactly the conflict branch of the match. -/
theorem plug_fail_exact (room : SmartRoom) (d : Device)
    (hfail : (room.plug d).1.isOk = false) :
    (room.plug d).1
      = Except.error ("Device with name " ++ d.name ++ " already pluged") := by
  by_cases hc : ∃ x ∈ room.devices, x.name = d.name
  · rw [plug_eq_of_conflict room d hc]
  · push_neg at hc
    rw [plug_eq_of_fresh room d hc] at hfail
    simp [Except.isOk, Except.toBool] at hfail

/-- C1: uniqueness is enforced by both containers — along any sequence
of `add` calls the house never holds two rooms with equal names, and a
conflicting `add` fails leaving the room count unchanged; likewise for
`plug` on a room and its devices. -/
theorem C1_uniqueness :
    (∀ (n : String) (rs : List SmartRoom),
        (((SmartHouse.new n).addAll rs).roomNames).Nodup) ∧
    (∀ (h : SmartHouse) (r : SmartRoom), (∃ v ∈ h.rooms, v.name = r.name) →
        (h.add r).1.isOk = false ∧ (h.add r).2.rooms.length = h.rooms.length) ∧
    (∀ (n : String) (ds : List Device),
        (((SmartRoom.new n).plugAll ds).deviceNames).Nodup) ∧
    (∀ (room : SmartRoom) (d : Device), (∃ x ∈ room.devices, x.name = d.name) →
        (room.plug d).1.isOk = false ∧
          (room.plug d).2.devices.length = room.devices.length) := by
  refine ⟨?_, ?_, ?_, ?_⟩
  · intro n rs
    exact addAll_nodup rs (SmartHouse.new n)
      (by simp [SmartHouse.new, SmartHouse.roomNames])
  · intro h r hc
    rw [add_eq_of_conflict h r hc]
    simp [Except.isOk, Except.toBool]
  · intro n ds
    exact plugAll_nodup ds (SmartRoom.new n)
      (by simp [SmartRoom.new, SmartRoom.deviceNames])
  · intro room d hc
    rw [plug_eq_of_conflict room d hc]
    simp [Except.isOk, Except.toBool]

/-- C1 at a concrete conflict: an `add` of a second "Kitchen" and a
`plug` of a second "Toaster" both fail and keep the counts. -/
theorem C1_uniqueness_witness :
    ((SmartHouse.mk "H" [SmartRoom.mk "Kitchen" []]).add
        (SmartRoom.mk "Kitchen" [])).1.isOk = false ∧
    ((SmartHouse.mk "H" [SmartRoom.mk "Kitchen" []]).add
        (SmartRoom.mk "Kitchen" [])).2.rooms.length
      = (SmartHouse.mk "H" [SmartRoom.mk "Kitchen" []]).rooms.length ∧
    ((SmartRoom.mk "R" [Device.mk "Toaster" 0]).plug
        (Device.mk "Toaster" 1)).1.isOk = false ∧
    ((SmartRoom.mk "R" [Device.mk "Toaster" 0]).plug
        (Device.mk "Toaster" 1)).2.devices.length
      = (SmartRoom.mk "R" [Device.mk "Toaster" 0]).devices.length := by
  have h1 := C1_uniqueness.2.1 (SmartHouse.mk "H" [SmartRoom.mk "Kitchen" []])
    (SmartRoom.mk "Kitchen" []) ⟨SmartRoom.mk "Kitchen" [], by simp, rfl⟩
  have h2 := C1_uniqueness.2.2.2 (SmartRoom.mk "R" [Device.mk "Toaster" 0])
    (Device.mk "Toaster" 1) ⟨Device.mk "Toaster" 0, by simp, rfl⟩
  exact ⟨h1.1, h1.2, h2.1, h2.2⟩

/-- C2: `add` and `plug` are atomic — starting from a state satisfying
the invariant, either the call fully succeeds (item present, invariant
still holds) or it fully fails with the entire state exactly as it
was. -/
theorem C2_atomicity :
    (∀ (h : SmartHouse) (r : SmartRoom), h.roomNames.Nodup →
        ((h.add r).1 = Except.ok () ∧ r ∈ (h.add r).2.rooms ∧
            (h.add r).2.roomNames.Nodup) ∨
        ((h.add r).1.isOk = false ∧ (h.add r).2 = h)) ∧
    (∀ (room : SmartRoom) (d : Device), room.deviceNames.Nodup →
        ((room.plug d).1 = Except.ok () ∧ d ∈ (room.plug d).2.devices ∧
            (room.plug d).2.deviceNames.Nodup) ∨
        ((room.plug d).1.isOk = false ∧ (room.plug d).2 = room)) := by
  constructor
  · intro h r hnd
    by_cases hc : ∃ v ∈ h.rooms, v.name = r.name
    · right
      rw [add_eq_of_conflict h r hc]
      simp [Except.isOk, Except.toBool]
    · left
      push_neg at hc
      have hnd' := add_roomNames_nodup h r hnd
      rw [add_eq_of_fresh h r hc] at hnd' ⊢
      exact ⟨rfl, by simp, hnd'⟩
  · intro room d hnd
    by_cases hc : ∃ x ∈ room.devices, x.name = d.name
    · right
      rw [plug_eq_of_conflict room d hc]
      simp [Except.isOk, Except.toBool]
    · left
      push_neg at hc
      have hnd' := plug_deviceNames_nodup room d hnd
      rw [plug_eq_of_fresh room d hc] at hnd' ⊢
      exact ⟨rfl, by simp, hnd'⟩

/-- C2 at concrete inputs: adding "Kitchen" to an empty "H" and
plugging a "Toaster" into an empty "R". -/
theorem C2_atomicity_witness :
    ((((SmartHouse.new "H").add (SmartRoom.new "Kitchen")).1 = Except.ok () ∧
        SmartRoom.new "Kitchen"
          ∈ ((SmartHouse.new "H").add (SmartRoom.new "Kitchen")).2.rooms ∧
        ((SmartHouse.new "H").add (SmartRoom.new "Kitchen")).2.roomNames.Nodup) ∨
      (((SmartHouse.new "H").add (SmartRoom.new "Kitchen")).1.isOk = false ∧
        ((SmartHouse.new "H").add (SmartRoom.new "Kitchen")).2
          = SmartHouse.new "H")) ∧
    ((((SmartRoom.new "R").plug (Device.mk "Toaster" 0)).1 = Except.ok () ∧
        Device.mk "Toaster" 0
          ∈ ((SmartRoom.new "R").plug (Device.mk "Toaster" 0)).2.devices ∧
        ((SmartRoom.new "R").plug (Device.mk "Toaster" 0)).2.deviceNames.Nodup) ∨
      (((SmartRoom.new "R").plug (Device.mk "Toaster" 0)).1.isOk = false ∧
        ((SmartRoom.new "R").plug (Device.mk "Toaster" 0)).2
          = SmartRoom.new "R")) := by
  exact ⟨C2_atomicity.1 (SmartHouse.new "H") (SmartRoom.new "Kitchen") (by decide),
    C2_atomicity.2 (SmartRoom.new "R") (Device.mk "Toaster" 0) (by decide)⟩

/-- C3: insertion order is preserved — after any interleaving of
inserts and removals, `get_rooms()` is an in-order subsequence of the
rooms passed to `add`, and `devices()` is an in-order subsequence of
the names of the devices passed to `plug`. -/
theorem C3_insertion_order :
    (∀ (n : String) (ops : List HouseOp),
        List.Sublist (((SmartHouse.new n).run ops).get_rooms) (houseAdds ops)) ∧
    (∀ (n : String) (ops : List RoomOp),
        List.Sublist (((SmartRoom.new n).run ops).deviceNames)
          ((roomAdds ops).map (fun d => d.name))) := by
  constructor
  · intro n ops
    have h1 := run_rooms_sublist ops (SmartHouse.new n)
    simpa [SmartHouse.new, SmartHouse.get_rooms] using h1
  · intro n ops
    have h1 := run_devices_sublist ops (SmartRoom.new n)
    have h2 : List.Sublist (((SmartRoom.new n).run ops).devices) (roomAdds ops) := by
      simpa [SmartRoom.new] using h1
    have h3 := h2.map (fun d => d.name)
    simpa [SmartRoom.deviceNames] using h3

/-- C4: removing an absent name is a silent no-op — `del` and `unplug`
leave the whole state unchanged (and return nothing, so no error is
possible). -/
theorem C4_remove_absent_noop :
    (∀ (h : SmartHouse) (s : String),
        (∀ r ∈ h.rooms, r.name ≠ s) → h.del s = h) ∧
    (∀ (room : SmartRoom) (s : String),
        (∀ d ∈ room.devices, d.name ≠ s) → room.unplug s = room) := by
  constructor
  · intro h s habs
    have hrm : removeFirst (fun r => r.name == s) h.rooms = h.rooms :=
      removeFirst_of_none _ _ (fun r hr => by simpa using habs r hr)
    simp [SmartHouse.del, hrm]
  · intro room s habs
    have hrm : removeFirst (fun d => d.name == s) room.devices = room.devices :=
      removeFirst_of_none _ _ (fun d hd => by simpa using habs d hd)
    simp [SmartRoom.unplug, hrm]

/-- C4 at concrete inputs: deleting "Bathroom" from a house holding
only "Kitchen", and unplugging "Mixer" from a room holding only
"Toaster". -/
theorem C4_remove_absent_noop_witness :
    (SmartHouse.mk "H" [SmartRoom.mk "Kitchen" []]).del "Bathroom"
      = SmartHouse.mk "H" [SmartRoom.mk "Kitchen" []] ∧
    (SmartRoom.mk "R" [Device.mk "Toaster" 0]).unplug "Mixer"
      = SmartRoom.mk "R" [Device.mk "Toaster" 0] := by
  constructor
  · exact C4_remove_absent_noop.1 (SmartHouse.mk "H" [SmartRoom.mk "Kitchen" []])
      "Bathroom" (by decide)
  · exact C4_remove_absent_noop.2 (SmartRoom.mk "R" [Device.mk "Toaster" 0])
      "Mixer" (by decide)

/-- C5: the connection check is name-based — after a successful `plug`
of a device named `n`, `is_connected` answers true for any device
object named `n`, and in general `is_connected(device)` is true iff
some stored device shares `device`'s name. -/
theorem C5_name_based_connection :
    (∀ (room : SmartRoom) (d d' : Device), d.name = d'.name →
        (room.plug d).1.isOk = true →
        ((room.plug d).2).is_connected d' = true) ∧
    (∀ (room : SmartRoom) (d : Device),
        room.is_connected d = true ↔ ∃ x ∈ room.devices, x.name = d.name) := by
  constructor
  · intro room d d' hname hok
    by_cases hc : ∃ x ∈ room.devices, x.name = d.name
    · rw [plug_eq_of_conflict room d hc] at hok
      simp [Except.isOk, Except.toBool] at hok
    · push_neg at hc
      rw [plug_eq_of_fresh room d hc]
      simp [SmartRoom.is_connected, hname]
  · intro room d
    simp [SmartRoom.is_connected, List.any_eq_true]

/-- C5 at concrete inputs: after plugging device object ⟨"Toaster", 0⟩,
the distinct object ⟨"Toaster", 1⟩ is reported connected. -/
theorem C5_name_based_connection_witness :
    (((SmartRoom.new "Kitchen").plug (Device.mk "Toaster" 0)).2).is_connected
      (Device.mk "Toaster" 1) = true := by
  exact C5_name_based_connection.1 (SmartRoom.new "Kitchen")
    (Device.mk "Toaster" 0) (Device.mk "Toaster" 1) rfl (by decide)

/-- C6: room equality is name-only — two rooms compare equal exactly
when their names are equal, regardless of either room's device list. -/
theorem C6_room_equality_by_name :
    (∀ r1 r2 : SmartRoom, SmartRoom.eq r1 r2 = true ↔ r1.name = r2.name) ∧
    (∀ (n m : String) (ds1 ds2 es1 es2 : List Device),
        SmartRoom.eq (SmartRoom.mk n ds1) (SmartRoom.mk m es1)
          = SmartRoom.eq (SmartRoom.mk n ds2) (SmartRoom.mk m es2)) := by
  constructor
  · intro r1 r2
    simp [SmartRoom.eq]
  · intro n m ds1 ds2 es1 es2
    rfl

/-- C7: every duplicate-name failure carries the conflicting name —
a failed `add` returns the already-constructed error built from the
room's name, and a failed `plug` the duplicate-device error built from
the device's name. -/
theorem C7_error_carries_name :
    (∀ (h : SmartHouse) (r : SmartRoom), (h.add r).1.isOk = false →
        (h.add r).1 = Except.error ("room " ++ r.name ++ " already constructed")) ∧
    (∀ (room : SmartRoom) (d : Device), (room.plug d).1.isOk = false →
        (room.plug d).1
          = Except.error ("Device with name " ++ d.name ++ " already pluged")) := by
  exact ⟨add_fail_exact, plug_fail_exact⟩

/-- C7 at concrete conflicts: the exact error values for a second
"Kitchen" and a second "Toaster". -/
theorem C7_error_carries_name_witness :
    ((SmartHouse.mk "H" [SmartRoom.mk "Kitchen" []]).add
        (SmartRoom.mk "Kitchen" [])).1
      = Except.error ("room " ++ "Kitchen" ++ " already constructed") ∧
    ((SmartRoom.mk "R" [Device.mk "Toaster" 0]).plug
        (Device.mk "Toaster" 1)).1
      = Except.error ("Device with name " ++ "Toaster" ++ " already pluged") := by
  exact ⟨C7_error_carries_name.1 (SmartHouse.mk "H" [SmartRoom.mk "Kitchen" []])
      (SmartRoom.mk "Kitchen" []) (by decide),
    C7_error_carries_name.2 (SmartRoom.mk "R" [Device.mk "Toaster" 0])
      (Device.mk "Toaster" 1) (by decide)⟩

/-- C8: the `Display` renderings are exact — a house renders as
"-> House: " plus its name plus a newline, a room as "--> Room: " plus
its name plus a newline, with the spec's concrete examples. -/
theorem C8_display_exact :
    (∀ h : SmartHouse, h.display = "-> House: " ++ h.name ++ "\n") ∧
    (SmartHouse.new "My Smart Home").display = "-> House: My Smart Home\n" ∧
    (∀ r : SmartRoom, r.display = "--> Room: " ++ r.name ++ "\n") ∧
    (SmartRoom.new "Living Room").display = "--> Room: Living Room\n" := by
  refine ⟨fun h => rfl, by decide, fun r => rfl, by decide⟩

/-- C9: `create_report` is pure delegation — the result, success or
error, is exactly what the reporter's `make` returns on the house, and
the house (taken by shared reference in the source) is not modified. -/
theorem C9_create_report_delegation :
    ∀ (h : SmartHouse) (rep : Reportable), h.create_report rep = rep.make h := by
  intro h rep
  rfl

/-- C10: no operation changes a container's name — `add`/`del` keep the
house's name and never rewrite an already-present room (they only
append the new room or drop a matching one), `plug`/`unplug` keep the
room's name, and the name given at construction is the name stored. -/
theorem C10_frame_names :
    (∀ n : String, (SmartHouse.new n).name = n ∧ (SmartRoom.new n).name = n) ∧
    (∀ (h : SmartHouse) (r : SmartRoom), (h.add r).2.name = h.name ∧
        ((h.add r).2.rooms = h.rooms ∨ (h.add r).2.rooms = h.rooms ++ [r])) ∧
    (∀ (h : SmartHouse) (s : String), (h.del s).name = h.name ∧
        List.Sublist (h.del s).rooms h.rooms) ∧
    (∀ (room : SmartRoom) (d : Device), (room.plug d).2.name = room.name) ∧
    (∀ (room : SmartRoom) (s : String), (room.unplug s).name = room.name) := by
  refine ⟨fun n => ⟨rfl, rfl⟩, ?_, ?_, ?_, ?_⟩
  · intro h r
    rcases add_snd_cases h r with hcase | hcase
    · rw [hcase]
      exact ⟨rfl, Or.inl rfl⟩
    · rw [hcase]
      exact ⟨rfl, Or.inr rfl⟩
  · intro h s
    refine ⟨rfl, ?_⟩
    simpa [SmartHouse.del] using removeFirst_sublist (fun r => r.name == s) h.rooms
  · intro room d
    rcases plug_snd_cases room d with hcase | hcase
    · rw [hcase]
    · rw [hcase]
  · intro room s
    rfl

end Smart
